import Mathlib

/-!
Verification of the ray-tracer core in `raytracer_cpp/main.cpp`.

Float values are modelled as exact rationals.  The scene-object classes
(`Sphere`, `TiledPlane`, `Camera`) live in headers that are not part of the
translated source, so a scene object is modelled abstractly as a bundle of
the four capability functions the main file calls through the polymorphic
interface: `Intersects`, `GetSurfaceNormal`, `GetMaterial`, `GetRayFrom`.
Pointer identity of objects in the `sceneObjects` vector is modelled by the
object's index in the scene list (each `push_back` in `InitScene` inserts a
fresh `make_shared` pointer, so distinct indices are distinct pointers).
-/

/-- Three-component vector over ℚ, modelling `glm::vec3` (float components
modelled as exact rationals).  Used interchangeably for points, directions
and colors, as in the source. -/
structure Vec3 where
  x : ℚ
  y : ℚ
  z : ℚ
deriving DecidableEq

instance : Add Vec3 := ⟨fun a b => ⟨a.x + b.x, a.y + b.y, a.z + b.z⟩⟩

instance : Sub Vec3 := ⟨fun a b => ⟨a.x - b.x, a.y - b.y, a.z - b.z⟩⟩

/-- Component-wise product, as `glm` vector-by-vector multiplication. -/
instance : Mul Vec3 := ⟨fun a b => ⟨a.x * b.x, a.y * b.y, a.z * b.z⟩⟩

/-- Vector-by-scalar product, as `glm` vector `*` float. -/
instance : HMul Vec3 ℚ Vec3 := ⟨fun v s => ⟨v.x * s, v.y * s, v.z * s⟩⟩

/-- The zero vector `vec3(0, 0, 0)`. -/
def vzero : Vec3 := ⟨0, 0, 0⟩

/-- Dot product of two vectors, as `glm::dot`. -/
def dot3 (a b : Vec3) : ℚ := a.x * b.x + a.y * b.y + a.z * b.z

/-- Rational stand-in for the float square root: exact on perfect squares
(the only places concrete computations below need it), a floor-style
approximation elsewhere.  The structural theorems in this file do not depend
on its values. -/
def ratSqrt (q : ℚ) : ℚ := (Nat.sqrt q.num.toNat : ℚ) / (Nat.sqrt q.den : ℚ)

/-- Euclidean length of a vector, as `glm::length`. -/
def vlength (v : Vec3) : ℚ := ratSqrt (dot3 v v)

/-- Normalization `v / length(v)`, as `glm::normalize`. -/
def vnormalize (v : Vec3) : Vec3 :=
  ⟨v.x / vlength v, v.y / vlength v, v.z / vlength v⟩

/-- Reflection of `i` about the normal `n`, as `glm::reflect`:
`i - n * (2 * dot(n, i))`. -/
def reflect (i n : Vec3) : Vec3 := i - n * (2 * dot3 n i)

/-- The material record of `sceneobjects.h` as used by `main.cpp`. -/
structure Material where
  albedo : Vec3
  specular : Vec3
  emissive : Vec3
  reflectance : ℚ
deriving DecidableEq

/-- A scene object, abstract over the four virtual methods `main.cpp` calls.
`intersects origin dir = some d` models `Intersects(origin, dir, d)`
returning `true` with out-parameter `d`; `none` models returning `false`. -/
structure SceneObject where
  intersects : Vec3 → Vec3 → Option ℚ
  getSurfaceNormal : Vec3 → Vec3
  getMaterial : Vec3 → Material
  getRayFrom : Vec3 → Vec3

/-- The exact value of `FLT_MAX`, `(2 - 2 ^ (-23)) * 2 ^ 127`. -/
def fltMax : ℚ := 2 ^ 128 - 2 ^ 104

/-- The loop of `FindFirstIntersector`: fold over the remaining objects,
carrying the index of the next object and the accumulator
`(pObject, minDistance)` (the winning object held by index).  The update is
exactly the loop body: on a hit at `d`, replace the accumulator only when
`d < minDistance` (strict). -/
def ffiAux (origin dir : Vec3) :
    List SceneObject → ℕ → Option ℕ × ℚ → Option ℕ × ℚ
  | [], _, acc => acc
  | o :: rest, i, acc =>
    ffiAux origin dir rest (i + 1)
      (match o.intersects origin dir with
       | some d => if d < acc.2 then (some i, d) else acc
       | none => acc)

/-- Model of `FindFirstIntersector(from, dir, dst)`: starts with a null object and
`minDistance = FLT_MAX`, scans all scene objects, returns the winning object
(as its index in the scene list, modelling the returned pointer) together
with the final `dst`. -/
def findFirstIntersector (scene : List SceneObject) (origin dir : Vec3) :
    Option ℕ × ℚ :=
  ffiAux origin dir scene 0 (none, fltMax)

/-- The self-intersection offset `0.001f` used for shadow rays. -/
def shadowEps : ℚ := 1 / 1000

/-- The body of the shading loop of `TraceRay`, one candidate light at a
time: `color` is the accumulator, `j` the index of the candidate light
(modelling the loop pointer `light`), `obj` the primary-hit object.
Transcribes lines 105-121 of `main.cpp`. -/
def shadeLight (scene : List SceneObject) (raydir interPos normal albedo : Vec3)
    (obj : SceneObject) (color : Vec3) (j : ℕ) (light : SceneObject) : Vec3 :=
  let rayFrom := vnormalize (light.getRayFrom interPos)
  let occluder := (findFirstIntersector scene (interPos + rayFrom * shadowEps) rayFrom).1
  let occlusionOccurred := occluder ≠ some j
  if occlusionOccurred then color
  else
    let intensity := max (dot3 normal rayFrom) 0
    let color1 := color + albedo * (light.getMaterial vzero).emissive * intensity
    let reflection := reflect raydir normal
    let si := dot3 reflection rayFrom
    let si2 := si * si
    color1 + (obj.getMaterial vzero).specular * si2

/-- Model of `TraceRay(rayorig, raydir, depth)`.  The source dereferences the object
returned by `FindFirstIntersector` without a null check; a `none` result
here models that null dereference (undefined behavior in C++).  Note the
source queries `GetMaterial(vec3(0, 0, 0))` — the fixed origin point — for
the initial emissive color and for the specular color, but
`GetMaterial(interPos)` for the albedo. -/
def traceRay (scene : List SceneObject) (rayorig raydir : Vec3) (depth : ℤ) :
    Option Vec3 :=
  let r := findFirstIntersector scene rayorig raydir
  match r.1 with
  | none => none
  | some i =>
    match scene.get? i with
    | none => none
    | some obj =>
      let minDistance := r.2
      let interPos := rayorig + vnormalize raydir * minDistance
      let normal := obj.getSurfaceNormal interPos
      let albedo := (obj.getMaterial interPos).albedo
      let color0 := (obj.getMaterial vzero).emissive
      some (scene.enum.foldl
        (fun color lj => shadeLight scene raydir interPos normal albedo obj color lj.1 lj.2)
        color0)

/-- The camera, abstract over `GetWorldRay` (defined in `camera.h`, outside
the translated source): `getWorldRay px py` models
`GetWorldRay(vec2(px, py))`. -/
structure Camera where
  position : Vec3
  getWorldRay : ℚ → ℚ → Vec3

/-- Scalar clamp `min(max(v, lo), hi)`, as `glm::clamp` on one component. -/
def clampQ (v lo hi : ℚ) : ℚ := min (max v lo) hi

/-- Component-wise clamp, as `glm::clamp(v, lo, hi)` on `vec3`. -/
def vclamp (v lo hi : Vec3) : Vec3 :=
  ⟨clampQ v.x lo.x hi.x, clampQ v.y lo.y hi.y, clampQ v.z lo.z hi.z⟩

/-- The conversion `uint8_t(f)`: C++ float-to-unsigned truncation toward
zero, which on the non-negative values produced after clamping is the
floor. -/
def toByte (q : ℚ) : ℕ := (⌊q⌋).toNat

/-- The per-pixel body of `DrawScene` (lines 136-148 of `main.cpp`): build
the camera ray at the pixel center `(x + 0.5, y + 0.5)`, trace with depth
`0`, scale by `255`, clamp each channel to `[0, 255]`, truncate to 8-bit.
`none` propagates `TraceRay`'s null-dereference case. -/
def drawScenePixel (cam : Camera) (scene : List SceneObject) (x y : ℕ) :
    Option (ℕ × ℕ × ℕ) :=
  let ray := cam.getWorldRay ((x : ℚ) + 1/2) ((y : ℚ) + 1/2)
  match traceRay scene cam.position ray 0 with
  | none => none
  | some c =>
    let c1 := c * (255 : ℚ)
    let c2 := vclamp c1 vzero ⟨255, 255, 255⟩
    some (toByte c2.x, toByte c2.y, toByte c2.z)

/-- The light direction used by the shading loop: the normalized result of
`light->GetRayFrom(interPos)`. -/
def lightDirOf (light : SceneObject) (interPos : Vec3) : Vec3 :=
  vnormalize (light.getRayFrom interPos)

/-- Scalar-by-vector product (the claim-side order of writing the lighting
products: scalar factor in front). -/
def qsmul (s : ℚ) (v : Vec3) : Vec3 := ⟨s * v.x, s * v.y, s * v.z⟩

/-- The diffuse term accumulated for one unoccluded light, exactly as the
source writes it: `albedo * light.emissive * max(dot(normal, rayFrom), 0)`. -/
def diffuseTerm (normal albedo lightEmissive rayFrom : Vec3) : Vec3 :=
  albedo * lightEmissive * max (dot3 normal rayFrom) 0

/-- The specular term accumulated for one unoccluded light, exactly as the
source writes it: the specular color times the square of the raw
(unclamped) dot of the reflected ray with the light direction. -/
def specularTerm (raydir normal spec0 rayFrom : Vec3) : Vec3 :=
  spec0 * (dot3 (reflect raydir normal) rayFrom * dot3 (reflect raydir normal) rayFrom)

/-- Net color added by one candidate light `j`: the diffuse plus specular
terms when the shadow-ray query returns the candidate itself, zero
otherwise. -/
def contribution (scene : List SceneObject) (raydir interPos normal albedo spec0 : Vec3)
    (j : ℕ) (light : SceneObject) : Vec3 :=
  let rayFrom := lightDirOf light interPos
  if (findFirstIntersector scene (interPos + rayFrom * shadowEps) rayFrom).1 = some j then
    diffuseTerm normal albedo (light.getMaterial vzero).emissive rayFrom
      + specularTerm raydir normal spec0 rayFrom
  else vzero

/-- Sum of a list of vectors. -/
def vsum : List Vec3 → Vec3
  | [] => vzero
  | v :: rest => v + vsum rest

/-- Replace the `reflectance` field of a material. -/
def setReflectance (m : Material) (r : ℚ) : Material :=
  { m with reflectance := r }

/-- Replace the `reflectance` field of every material an object reports,
leaving everything else unchanged. -/
def overrideReflectance (r : ℚ) (o : SceneObject) : SceneObject :=
  { o with getMaterial := fun p => setReflectance (o.getMaterial p) r }

/-- Modelled from the spec: the variant of the shading-loop body that claim
C1 describes, with the hit material's specular color queried at the
intersection point instead of at the fixed point `(0, 0, 0)`.  Used only to
compare against the source behavior. -/
def shadeLightPointQueried (scene : List SceneObject)
    (raydir interPos normal albedo : Vec3) (obj : SceneObject) (color : Vec3)
    (j : ℕ) (light : SceneObject) : Vec3 :=
  let rayFrom := vnormalize (light.getRayFrom interPos)
  let occluder := (findFirstIntersector scene (interPos + rayFrom * shadowEps) rayFrom).1
  let occlusionOccurred := occluder ≠ some j
  if occlusionOccurred then color
  else
    let intensity := max (dot3 normal rayFrom) 0
    let color1 := color + albedo * (light.getMaterial vzero).emissive * intensity
    let reflection := reflect raydir normal
    let si := dot3 reflection rayFrom
    let si2 := si * si
    color1 + (obj.getMaterial interPos).specular * si2

/-- Modelled from the spec: the variant of `TraceRay` that claim C1
describes, with the color initialized to the hit material's emissive at the
intersection point and the specular color taken at that same point.  Used
only to compare against the source behavior. -/
def traceRayPointQueried (scene : List SceneObject) (rayorig raydir : Vec3)
    (depth : ℤ) : Option Vec3 :=
  let r := findFirstIntersector scene rayorig raydir
  match r.1 with
  | none => none
  | some i =>
    match scene.get? i with
    | none => none
    | some obj =>
      let minDistance := r.2
      let interPos := rayorig + vnormalize raydir * minDistance
      let normal := obj.getSurfaceNormal interPos
      let albedo := (obj.getMaterial interPos).albedo
      let color0 := (obj.getMaterial interPos).emissive
      some (scene.enum.foldl
        (fun color lj =>
          shadeLightPointQueried scene raydir interPos normal albedo obj color lj.1 lj.2)
        color0)

/-- Example material whose emissive varies spatially: bright red at the
fixed query point `(0, 0, 0)`, black everywhere else; zero albedo and
specular, so every shading-loop contribution vanishes. -/
def exMaterial (p : Vec3) : Material :=
  { albedo := vzero
    specular := vzero
    emissive := if p = vzero then ⟨5, 0, 0⟩ else vzero
    reflectance := 0 }

/-- Example object: hits every ray at distance `1`, with the spatially
varying `exMaterial`. -/
def exObj : SceneObject :=
  { intersects := fun _ _ => some 1
    getSurfaceNormal := fun _ => ⟨0, 0, 1⟩
    getMaterial := exMaterial
    getRayFrom := fun _ => ⟨0, 0, 1⟩ }

/-- Example object hitting every ray at distance `3`, with a constant
material; its intersection test ignores the direction, so it is trivially
invariant under direction normalization. -/
def objA : SceneObject :=
  { intersects := fun _ _ => some 3
    getSurfaceNormal := fun _ => ⟨0, 1, 0⟩
    getMaterial := fun _ => { albedo := vzero, specular := vzero, emissive := vzero, reflectance := 0 }
    getRayFrom := fun _ => ⟨0, 1, 0⟩ }

/-- A second object behaviorally identical to `objA` (same reported
distance `3`), to exercise the equal-distance tie-break. -/
def objB : SceneObject :=
  { intersects := fun _ _ => some 3
    getSurfaceNormal := fun _ => ⟨0, 1, 0⟩
    getMaterial := fun _ => { albedo := vzero, specular := vzero, emissive := vzero, reflectance := 0 }
    getRayFrom := fun _ => ⟨0, 1, 0⟩ }

/-- Example object whose reported distance depends on the ray direction
vector itself (it reports the direction's `x` component), exhibiting that
`FindFirstIntersector` passes the direction through to the objects
unnormalized. -/
def scaleObj : SceneObject :=
  { intersects := fun _ d => some d.x
    getSurfaceNormal := fun _ => ⟨0, 1, 0⟩
    getMaterial := fun _ => { albedo := vzero, specular := vzero, emissive := vzero, reflectance := 0 }
    getRayFrom := fun _ => ⟨0, 1, 0⟩ }

/-- Example camera at `(10, 0, 0)` whose world rays all point along `+x`. -/
def exCam : Camera :=
  { position := ⟨10, 0, 0⟩
    getWorldRay := fun _ _ => ⟨1, 0, 0⟩ }

theorem vec3_add_def (a b : Vec3) : a + b = ⟨a.x + b.x, a.y + b.y, a.z + b.z⟩ := rfl

theorem vec3_mul_def (a b : Vec3) : a * b = ⟨a.x * b.x, a.y * b.y, a.z * b.z⟩ := rfl

theorem vec3_hmul_def (v : Vec3) (s : ℚ) : v * s = ⟨v.x * s, v.y * s, v.z * s⟩ := rfl

theorem vec3_add_vzero (v : Vec3) : v + vzero = v := by
  cases v; simp [vec3_add_def, vzero]

theorem vec3_add_assoc (a b c : Vec3) : a + b + c = a + (b + c) := by
  cases a; cases b; cases c
  simp only [vec3_add_def, Vec3.mk.injEq]
  exact ⟨add_assoc _ _ _, add_assoc _ _ _, add_assoc _ _ _⟩

theorem shadeLight_eq_add (scene : List SceneObject)
    (raydir interPos normal albedo : Vec3) (obj : SceneObject) (color : Vec3)
    (j : ℕ) (light : SceneObject) :
    shadeLight scene raydir interPos normal albedo obj color j light
      = color + contribution scene raydir interPos normal albedo
          ((obj.getMaterial vzero).specular) j light := by
  unfold shadeLight contribution diffuseTerm specularTerm lightDirOf
  dsimp only []
  split_ifs with h1 h2 <;>
    first
      | exact absurd h2 h1
      | exact (vec3_add_vzero _).symm
      | exact vec3_add_assoc _ _ _
      | exact absurd (not_not.mp h1) h2

theorem foldl_shadeLight (scene : List SceneObject)
    (raydir interPos normal albedo : Vec3) (obj : SceneObject) :
    ∀ (L : List (ℕ × SceneObject)) (c : Vec3),
      L.foldl (fun color lj =>
          shadeLight scene raydir interPos normal albedo obj color lj.1 lj.2) c
        = c + vsum (L.map (fun lj =>
            contribution scene raydir interPos normal albedo
              ((obj.getMaterial vzero).specular) lj.1 lj.2))
  | [], c => by simp [vsum, vec3_add_vzero]
  | lj :: L, c => by
    simp only [List.foldl_cons, List.map_cons, vsum]
    rw [foldl_shadeLight scene raydir interPos normal albedo obj L,
      shadeLight_eq_add, vec3_add_assoc]

theorem traceRay_char (scene : List SceneObject) (rayorig raydir : Vec3)
    (depth : ℤ) (i : ℕ) (obj : SceneObject)
    (h1 : (findFirstIntersector scene rayorig raydir).1 = some i)
    (h2 : scene.get? i = some obj) :
    traceRay scene rayorig raydir depth
      = some ((obj.getMaterial vzero).emissive
          + vsum (scene.enum.map (fun lj =>
              contribution scene raydir
                (rayorig + vnormalize raydir * (findFirstIntersector scene rayorig raydir).2)
                (obj.getSurfaceNormal
                  (rayorig + vnormalize raydir * (findFirstIntersector scene rayorig raydir).2))
                ((obj.getMaterial
                  (rayorig + vnormalize raydir * (findFirstIntersector scene rayorig raydir).2)).albedo)
                ((obj.getMaterial vzero).specular) lj.1 lj.2))) := by
  unfold traceRay
  simp only [h1, h2]
  rw [foldl_shadeLight]

theorem ffiAux_char (origin dir : Vec3) :
    ∀ (rest : List SceneObject) (k : ℕ) (acc : Option ℕ × ℚ),
      (ffiAux origin dir rest k acc = acc
        ∧ ∀ m o d, rest.get? m = some o → o.intersects origin dir = some d → acc.2 ≤ d)
      ∨ (∃ m o, rest.get? m = some o
          ∧ (ffiAux origin dir rest k acc).1 = some (k + m)
          ∧ o.intersects origin dir = some (ffiAux origin dir rest k acc).2
          ∧ (ffiAux origin dir rest k acc).2 < acc.2
          ∧ (∀ n o' d', rest.get? n = some o' → o'.intersects origin dir = some d' →
              (ffiAux origin dir rest k acc).2 ≤ d')
          ∧ (∀ n o' d', n < m → rest.get? n = some o' → o'.intersects origin dir = some d' →
              (ffiAux origin dir rest k acc).2 < d'))
  | [], k, acc => by
    left
    refine ⟨rfl, ?_⟩
    intro m o d hm
    cases m <;> cases hm
  | o :: rest, k, acc => by
    rcases ho : o.intersects origin dir with _ | d
    · have hstep : ffiAux origin dir (o :: rest) k acc = ffiAux origin dir rest (k + 1) acc := by
        simp [ffiAux, ho]
      rcases ffiAux_char origin dir rest (k + 1) acc with
        ⟨heq, hall⟩ | ⟨m, ob, hget, hidx, hint, hlt, hmin, hstrict⟩
      · left
        refine ⟨by rw [hstep, heq], ?_⟩
        intro m o2 d2 hm hint2
        cases m with
        | zero =>
          cases hm
          rw [ho] at hint2; cases hint2
        | succ n => exact hall n o2 d2 hm hint2
      · right
        have hk : k + 1 + m = k + (m + 1) := by omega
        refine ⟨m + 1, ob, hget, by rw [hstep, hidx, hk], by rw [hstep]; exact hint,
          by rw [hstep]; exact hlt, ?_, ?_⟩
        · intro n o' d' hn hint2
          cases n with
          | zero =>
            cases hn
            rw [ho] at hint2; cases hint2
          | succ n2 => rw [hstep]; exact hmin n2 o' d' hn hint2
        · intro n o' d' hlt2 hn hint2
          cases n with
          | zero =>
            cases hn
            rw [ho] at hint2; cases hint2
          | succ n2 => rw [hstep]; exact hstrict n2 o' d' (by omega) hn hint2
    · by_cases hdlt : d < acc.2
      · have hstep : ffiAux origin dir (o :: rest) k acc
            = ffiAux origin dir rest (k + 1) (some k, d) := by
          simp [ffiAux, ho, hdlt]
        rcases ffiAux_char origin dir rest (k + 1) (some k, d) with
          ⟨heq, hall⟩ | ⟨m, ob, hget, hidx, hint, hlt, hmin, hstrict⟩
        · right
          refine ⟨0, o, rfl, ?_, ?_, ?_, ?_, ?_⟩
          · rw [hstep, heq]; simp
          · rw [hstep, heq]; exact ho
          · rw [hstep, heq]; exact hdlt
          · intro n o' d' hn hint2
            cases n with
            | zero =>
              cases hn
              rw [ho] at hint2
              injection hint2 with h2
              rw [hstep, heq, h2]
            | succ n2 =>
              rw [hstep, heq]
              exact hall n2 o' d' hn hint2
          · intro n o' d' hlt2 _ _
            exact absurd hlt2 (Nat.not_lt_zero n)
        · right
          have hk : k + 1 + m = k + (m + 1) := by omega
          have hltd : (ffiAux origin dir rest (k + 1) (some k, d)).2 < d := hlt
          refine ⟨m + 1, ob, hget, by rw [hstep, hidx, hk], by rw [hstep]; exact hint,
            by rw [hstep]; exact lt_trans hltd hdlt, ?_, ?_⟩
          · intro n o' d' hn hint2
            cases n with
            | zero =>
              cases hn
              rw [ho] at hint2
              injection hint2 with h2
              rw [hstep, ← h2]
              exact le_of_lt hltd
            | succ n2 => rw [hstep]; exact hmin n2 o' d' hn hint2
          · intro n o' d' hlt2 hn hint2
            cases n with
            | zero =>
              cases hn
              rw [ho] at hint2
              injection hint2 with h2
              rw [hstep, ← h2]
              exact hltd
            | succ n2 => rw [hstep]; exact hstrict n2 o' d' (by omega) hn hint2
      · have hstep : ffiAux origin dir (o :: rest) k acc = ffiAux origin dir rest (k + 1) acc := by
          simp [ffiAux, ho, hdlt]
        rcases ffiAux_char origin dir rest (k + 1) acc with
          ⟨heq, hall⟩ | ⟨m, ob, hget, hidx, hint, hlt, hmin, hstrict⟩
        · left
          refine ⟨by rw [hstep, heq], ?_⟩
          intro m o2 d2 hm hint2
          cases m with
          | zero =>
            cases hm
            rw [ho] at hint2
            injection hint2 with h2
            rw [← h2]
            exact not_lt.mp hdlt
          | succ n => exact hall n o2 d2 hm hint2
        · right
          have hk : k + 1 + m = k + (m + 1) := by omega
          refine ⟨m + 1, ob, hget, by rw [hstep, hidx, hk], by rw [hstep]; exact hint,
            by rw [hstep]; exact hlt, ?_, ?_⟩
          · intro n o' d' hn hint2
            cases n with
            | zero =>
              cases hn
              rw [ho] at hint2
              injection hint2 with h2
              rw [hstep, ← h2]
              exact le_of_lt (lt_of_lt_of_le hlt (not_lt.mp hdlt))
            | succ n2 => rw [hstep]; exact hmin n2 o' d' hn hint2
          · intro n o' d' hlt2 hn hint2
            cases n with
            | zero =>
              cases hn
              rw [ho] at hint2
              injection hint2 with h2
              rw [hstep, ← h2]
              exact lt_of_lt_of_le hlt (not_lt.mp hdlt)
            | succ n2 => rw [hstep]; exact hstrict n2 o' d' (by omega) hn hint2

theorem ffi_spec_some (scene : List SceneObject) (origin dir : Vec3) (i : ℕ)
    (h : (findFirstIntersector scene origin dir).1 = some i) :
    ∃ o, scene.get? i = some o
      ∧ o.intersects origin dir = some (findFirstIntersector scene origin dir).2
      ∧ (findFirstIntersector scene origin dir).2 < fltMax
      ∧ (∀ j o' d', scene.get? j = some o' → o'.intersects origin dir = some d' →
          (findFirstIntersector scene origin dir).2 ≤ d')
      ∧ (∀ j o', j < i → scene.get? j = some o' →
          o'.intersects origin dir ≠ some (findFirstIntersector scene origin dir).2) := by
  rcases ffiAux_char origin dir scene 0 (none, fltMax) with
    ⟨heq, _⟩ | ⟨m, o, hget, hidx, hint, hlt, hmin, hstrict⟩
  · rw [findFirstIntersector, heq] at h
    cases h
  · rw [findFirstIntersector] at h
    rw [hidx] at h
    injection h with h2
    have him : i = m := by omega
    subst him
    refine ⟨o, hget, hint, hlt, hmin, ?_⟩
    intro j o' hj hgj hint2
    exact absurd rfl (ne_of_lt (hstrict j o' _ hj hgj hint2))

theorem ffi_none_all (scene : List SceneObject) (origin dir : Vec3)
    (h : ∀ o ∈ scene, o.intersects origin dir = none) :
    findFirstIntersector scene origin dir = (none, fltMax) := by
  rcases ffiAux_char origin dir scene 0 (none, fltMax) with
    ⟨heq, _⟩ | ⟨m, o, hget, _, hint, _, _, _⟩
  · exact heq
  · rw [h o (List.get?_mem hget)] at hint
    cases hint

theorem ffi_hit_some (scene : List SceneObject) (origin dir : Vec3) (j : ℕ)
    (o : SceneObject) (d : ℚ) (hg : scene.get? j = some o)
    (hi : o.intersects origin dir = some d) (hd : d < fltMax) :
    (findFirstIntersector scene origin dir).1 ≠ none := by
  rcases ffiAux_char origin dir scene 0 (none, fltMax) with
    ⟨_, hall⟩ | ⟨m, ob, _, hidx, _, _, _, _⟩
  · exact absurd (hall j o d hg hi) (not_le.mpr hd)
  · rw [findFirstIntersector, hidx]
    simp

theorem overrideReflectance_intersects (r : ℚ) (o : SceneObject) :
    (overrideReflectance r o).intersects = o.intersects := rfl

theorem overrideReflectance_getSurfaceNormal (r : ℚ) (o : SceneObject) :
    (overrideReflectance r o).getSurfaceNormal = o.getSurfaceNormal := rfl

theorem overrideReflectance_getMaterial_albedo (r : ℚ) (o : SceneObject) (p : Vec3) :
    ((overrideReflectance r o).getMaterial p).albedo = (o.getMaterial p).albedo := rfl

theorem overrideReflectance_getMaterial_emissive (r : ℚ) (o : SceneObject) (p : Vec3) :
    ((overrideReflectance r o).getMaterial p).emissive = (o.getMaterial p).emissive := rfl

theorem overrideReflectance_getMaterial_specular (r : ℚ) (o : SceneObject) (p : Vec3) :
    ((overrideReflectance r o).getMaterial p).specular = (o.getMaterial p).specular := rfl

theorem overrideReflectance_getRayFrom (r : ℚ) (o : SceneObject) :
    (overrideReflectance r o).getRayFrom = o.getRayFrom := rfl

theorem ffiAux_override (origin dir : Vec3) (r : ℚ) :
    ∀ (rest : List SceneObject) (k : ℕ) (acc : Option ℕ × ℚ),
      ffiAux origin dir (rest.map (overrideReflectance r)) k acc
        = ffiAux origin dir rest k acc
  | [], _, _ => rfl
  | o :: rest, k, acc => by
    simp only [List.map_cons, ffiAux, overrideReflectance_intersects]
    exact ffiAux_override origin dir r rest (k + 1) _

theorem ffi_override (scene : List SceneObject) (origin dir : Vec3) (r : ℚ) :
    findFirstIntersector (scene.map (overrideReflectance r)) origin dir
      = findFirstIntersector scene origin dir :=
  ffiAux_override origin dir r scene 0 _

theorem shadeLight_override (scene : List SceneObject) (r : ℚ)
    (raydir interPos normal albedo : Vec3) (obj : SceneObject) (color : Vec3)
    (j : ℕ) (light : SceneObject) :
    shadeLight (scene.map (overrideReflectance r)) raydir interPos normal albedo
        (overrideReflectance r obj) color j (overrideReflectance r light)
      = shadeLight scene raydir interPos normal albedo obj color j light := by
  unfold shadeLight
  dsimp only []
  simp only [overrideReflectance_getRayFrom, overrideReflectance_getMaterial_emissive,
    overrideReflectance_getMaterial_specular, ffi_override]

theorem traceRay_override (scene : List SceneObject) (rayorig raydir : Vec3)
    (depth : ℤ) (r : ℚ) :
    traceRay (scene.map (overrideReflectance r)) rayorig raydir depth
      = traceRay scene rayorig raydir depth := by
  unfold traceRay
  dsimp only []
  rw [ffi_override]
  cases h : (findFirstIntersector scene rayorig raydir).1 with
  | none => rfl
  | some i =>
    dsimp only []
    rw [List.get?_map]
    cases hg : scene.get? i with
    | none => rfl
    | some obj =>
      simp only [Option.map_some']
      rw [List.enum_map, List.foldl_map]
      simp only [overrideReflectance_getSurfaceNormal, overrideReflectance_getMaterial_albedo,
        overrideReflectance_getMaterial_emissive, Prod.map_fst, Prod.map_snd, id_eq]
      congr 1
      congr 1
      funext c lj
      exact shadeLight_override scene r raydir _ _ _ obj c lj.1 lj.2

theorem vec3_sub_def (a b : Vec3) : a - b = ⟨a.x - b.x, a.y - b.y, a.z - b.z⟩ := rfl

theorem qsmul_hmul (s : ℚ) (v : Vec3) : qsmul s v = v * s := by
  cases v
  simp only [qsmul, vec3_hmul_def, Vec3.mk.injEq]
  exact ⟨mul_comm _ _, mul_comm _ _, mul_comm _ _⟩

theorem diffuseTerm_qsmul (normal albedo e l : Vec3) :
    diffuseTerm normal albedo e l = qsmul (max (dot3 normal l) 0) (albedo * e) := by
  unfold diffuseTerm qsmul
  cases albedo; cases e
  simp only [vec3_mul_def, vec3_hmul_def, Vec3.mk.injEq]
  refine ⟨by ring, by ring, by ring⟩

theorem specularTerm_qsmul (raydir normal spec0 l : Vec3) :
    specularTerm raydir normal spec0 l
      = qsmul (dot3 (reflect raydir normal) l ^ 2) spec0 := by
  unfold specularTerm qsmul
  cases spec0
  simp only [vec3_hmul_def, Vec3.mk.injEq]
  refine ⟨by ring, by ring, by ring⟩

theorem ffiAux_congr (origin dir dir2 : Vec3) :
    ∀ (rest : List SceneObject) (k : ℕ) (acc : Option ℕ × ℚ),
      (∀ o ∈ rest, o.intersects origin dir = o.intersects origin dir2) →
      ffiAux origin dir rest k acc = ffiAux origin dir2 rest k acc
  | [], _, _, _ => rfl
  | o :: rest, k, acc, h => by
    simp only [ffiAux]
    rw [h o (List.mem_cons_self o rest)]
    exact ffiAux_congr origin dir dir2 rest (k + 1) _
      (fun o2 ho2 => h o2 (List.mem_cons_of_mem o ho2))

theorem clampQ_bounds (v : ℚ) : 0 ≤ clampQ v 0 255 ∧ clampQ v 0 255 ≤ 255 :=
  ⟨le_min (le_max_right v 0) (by norm_num), min_le_right _ _⟩

theorem toByte_le_255 (q : ℚ) (h : q ≤ 255) : toByte q ≤ 255 := by
  unfold toByte
  have h2 : ⌊q⌋ ≤ (255 : ℤ) := by
    have h3 := Int.floor_mono h
    simpa using h3
  omega

/-- C2: for every ray and scene list, when `FindFirstIntersector` returns an
object it is one whose reported distance equals the returned `dst`, that
distance is a lower bound of every reported distance, and no
earlier-inserted object reported that same distance (strict `<` tie-break:
an equal-distance later object never replaces the winner); moreover a
result is returned whenever some object reports a hit below `FLT_MAX`. -/
theorem findFirstIntersector_min_tiebreak (scene : List SceneObject) (origin dir : Vec3) :
    (∀ i, (findFirstIntersector scene origin dir).1 = some i →
      ∃ o, scene.get? i = some o
        ∧ o.intersects origin dir = some (findFirstIntersector scene origin dir).2
        ∧ (∀ j o' d', scene.get? j = some o' → o'.intersects origin dir = some d' →
            (findFirstIntersector scene origin dir).2 ≤ d')
        ∧ (∀ j o', j < i → scene.get? j = some o' →
            o'.intersects origin dir ≠ some (findFirstIntersector scene origin dir).2))
    ∧ ((∃ j o d, scene.get? j = some o ∧ o.intersects origin dir = some d ∧ d < fltMax) →
        (findFirstIntersector scene origin dir).1 ≠ none) := by
  constructor
  · intro i h
    obtain ⟨o, hg, hi, _, hmin, htie⟩ := ffi_spec_some scene origin dir i h
    exact ⟨o, hg, hi, hmin, htie⟩
  · rintro ⟨j, o, d, hg, hi, hd⟩
    exact ffi_hit_some scene origin dir j o d hg hi hd

theorem findFirstIntersector_min_tiebreak_witness :
    ∃ o, [objA, objB].get? 0 = some o
      ∧ o.intersects vzero ⟨1, 0, 0⟩ = some (findFirstIntersector [objA, objB] vzero ⟨1, 0, 0⟩).2
      ∧ (∀ j o' d', [objA, objB].get? j = some o' →
          o'.intersects vzero ⟨1, 0, 0⟩ = some d' →
          (findFirstIntersector [objA, objB] vzero ⟨1, 0, 0⟩).2 ≤ d')
      ∧ (∀ j o', j < 0 → [objA, objB].get? j = some o' →
          o'.intersects vzero ⟨1, 0, 0⟩
            ≠ some (findFirstIntersector [objA, objB] vzero ⟨1, 0, 0⟩).2) :=
  (findFirstIntersector_min_tiebreak [objA, objB] vzero ⟨1, 0, 0⟩).1 0
    (by norm_num [findFirstIntersector, ffiAux, objA, objB, fltMax])

/-- C3: in the shading loop, the diffuse and specular contributions for a
candidate light `j` are added exactly when the nearest hit along the shadow
ray is, by object identity, the candidate itself; any other nearest hit
(or none) suppresses both contributions. -/
theorem shadeLight_occlusion_identity (scene : List SceneObject)
    (raydir interPos normal albedo : Vec3) (obj : SceneObject) (color : Vec3)
    (j : ℕ) (light : SceneObject) :
    ((findFirstIntersector scene
        (interPos + vnormalize (light.getRayFrom interPos) * shadowEps)
        (vnormalize (light.getRayFrom interPos))).1 = some j →
      shadeLight scene raydir interPos normal albedo obj color j light
        = color + (diffuseTerm normal albedo (light.getMaterial vzero).emissive
              (vnormalize (light.getRayFrom interPos))
            + specularTerm raydir normal ((obj.getMaterial vzero).specular)
              (vnormalize (light.getRayFrom interPos))))
    ∧ ((findFirstIntersector scene
        (interPos + vnormalize (light.getRayFrom interPos) * shadowEps)
        (vnormalize (light.getRayFrom interPos))).1 ≠ some j →
      shadeLight scene raydir interPos normal albedo obj color j light = color) := by
  rw [shadeLight_eq_add]
  unfold contribution lightDirOf
  dsimp only []
  constructor
  · intro h
    rw [if_pos h]
  · intro h
    rw [if_neg h, vec3_add_vzero]

theorem shadeLight_occlusion_identity_witness :
    shadeLight [exObj] ⟨1, 0, 0⟩ ⟨11, 0, 0⟩ ⟨0, 0, 1⟩ ⟨1, 1, 1⟩ exObj vzero 0 exObj
      = vzero + (diffuseTerm ⟨0, 0, 1⟩ ⟨1, 1, 1⟩ ((exObj.getMaterial vzero).emissive)
            (vnormalize (exObj.getRayFrom ⟨11, 0, 0⟩))
          + specularTerm ⟨1, 0, 0⟩ ⟨0, 0, 1⟩ ((exObj.getMaterial vzero).specular)
            (vnormalize (exObj.getRayFrom ⟨11, 0, 0⟩))) :=
  (shadeLight_occlusion_identity [exObj] ⟨1, 0, 0⟩ ⟨11, 0, 0⟩ ⟨0, 0, 1⟩ ⟨1, 1, 1⟩
      exObj vzero 0 exObj).1
    (by norm_num [findFirstIntersector, ffiAux, exObj, vnormalize, vlength, ratSqrt,
      dot3, Nat.sqrt, shadowEps, fltMax, vec3_add_def, vec3_hmul_def])

/-- C4: for an unoccluded candidate light, the diffuse contribution added to
the color equals `max(dot(normal, lightDir), 0)` times (component-wise) the
hit point's albedo times the light object's emissive, with `lightDir` the
normalized direction from the intersection point toward the light. -/
theorem shadeLight_diffuse_lambertian (scene : List SceneObject)
    (raydir interPos normal albedo : Vec3) (obj : SceneObject) (color : Vec3)
    (j : ℕ) (light : SceneObject)
    (h : (findFirstIntersector scene
        (interPos + vnormalize (light.getRayFrom interPos) * shadowEps)
        (vnormalize (light.getRayFrom interPos))).1 = some j) :
    shadeLight scene raydir interPos normal albedo obj color j light
      = color
        + qsmul (max (dot3 normal (vnormalize (light.getRayFrom interPos))) 0)
            (albedo * (light.getMaterial vzero).emissive)
        + specularTerm raydir normal ((obj.getMaterial vzero).specular)
            (vnormalize (light.getRayFrom interPos)) := by
  rw [shadeLight_eq_add]
  unfold contribution lightDirOf
  dsimp only []
  rw [if_pos h, diffuseTerm_qsmul, vec3_add_assoc]

theorem shadeLight_diffuse_lambertian_witness :
    shadeLight [exObj] ⟨1, 0, 0⟩ ⟨11, 0, 0⟩ ⟨0, 0, 1⟩ ⟨1, 1, 1⟩ exObj vzero 0 exObj
      = vzero
        + qsmul (max (dot3 ⟨0, 0, 1⟩ (vnormalize (exObj.getRayFrom ⟨11, 0, 0⟩))) 0)
            (⟨1, 1, 1⟩ * (exObj.getMaterial vzero).emissive)
        + specularTerm ⟨1, 0, 0⟩ ⟨0, 0, 1⟩ ((exObj.getMaterial vzero).specular)
            (vnormalize (exObj.getRayFrom ⟨11, 0, 0⟩)) :=
  shadeLight_diffuse_lambertian [exObj] ⟨1, 0, 0⟩ ⟨11, 0, 0⟩ ⟨0, 0, 1⟩ ⟨1, 1, 1⟩
    exObj vzero 0 exObj
    (by norm_num [findFirstIntersector, ffiAux, exObj, vnormalize, vlength, ratSqrt,
      dot3, Nat.sqrt, shadowEps, fltMax, vec3_add_def, vec3_hmul_def])

/-- C5: for an unoccluded candidate light, the specular contribution equals
the square of the raw dot product of `reflect(raydir, normal)` with the
light direction, times the hit material's specular color; the dot product
is not clamped at `0` before squaring, so a negative dot still yields a
positive coefficient. -/
theorem shadeLight_specular_unclamped (scene : List SceneObject)
    (raydir interPos normal albedo : Vec3) (obj : SceneObject) (color : Vec3)
    (j : ℕ) (light : SceneObject)
    (h : (findFirstIntersector scene
        (interPos + vnormalize (light.getRayFrom interPos) * shadowEps)
        (vnormalize (light.getRayFrom interPos))).1 = some j) :
    (shadeLight scene raydir interPos normal albedo obj color j light
      = color
        + diffuseTerm normal albedo (light.getMaterial vzero).emissive
            (vnormalize (light.getRayFrom interPos))
        + qsmul (dot3 (reflect raydir normal) (vnormalize (light.getRayFrom interPos)) ^ 2)
            ((obj.getMaterial vzero).specular))
    ∧ (dot3 (reflect raydir normal) (vnormalize (light.getRayFrom interPos)) < 0 →
        0 < dot3 (reflect raydir normal) (vnormalize (light.getRayFrom interPos)) ^ 2) := by
  constructor
  · rw [shadeLight_eq_add]
    unfold contribution lightDirOf
    dsimp only []
    rw [if_pos h, specularTerm_qsmul, vec3_add_assoc]
  · intro hneg
    rw [pow_two]
    exact mul_pos_of_neg_of_neg hneg hneg

theorem shadeLight_specular_unclamped_witness :
    (shadeLight [exObj] ⟨1, 0, 0⟩ ⟨11, 0, 0⟩ ⟨0, 0, 1⟩ ⟨1, 1, 1⟩ exObj vzero 0 exObj
      = vzero
        + diffuseTerm ⟨0, 0, 1⟩ ⟨1, 1, 1⟩ ((exObj.getMaterial vzero).emissive)
            (vnormalize (exObj.getRayFrom ⟨11, 0, 0⟩))
        + qsmul (dot3 (reflect ⟨1, 0, 0⟩ ⟨0, 0, 1⟩)
              (vnormalize (exObj.getRayFrom ⟨11, 0, 0⟩)) ^ 2)
            ((exObj.getMaterial vzero).specular))
    ∧ (dot3 (reflect ⟨1, 0, 0⟩ ⟨0, 0, 1⟩) (vnormalize (exObj.getRayFrom ⟨11, 0, 0⟩)) < 0 →
        0 < dot3 (reflect ⟨1, 0, 0⟩ ⟨0, 0, 1⟩) (vnormalize (exObj.getRayFrom ⟨11, 0, 0⟩)) ^ 2) :=
  shadeLight_specular_unclamped [exObj] ⟨1, 0, 0⟩ ⟨11, 0, 0⟩ ⟨0, 0, 1⟩ ⟨1, 1, 1⟩
    exObj vzero 0 exObj
    (by norm_num [findFirstIntersector, ffiAux, exObj, vnormalize, vlength, ratSqrt,
      dot3, Nat.sqrt, shadowEps, fltMax, vec3_add_def, vec3_hmul_def])

/-- C6: the shadow ray for a candidate light starts at the intersection
point offset by `0.001` times the normalized light direction and is cast
along that same normalized direction; the occlusion decision of the shading
loop consults `FindFirstIntersector` at exactly that ray. -/
theorem shadeLight_shadow_ray_geometry (scene : List SceneObject)
    (raydir interPos normal albedo : Vec3) (obj : SceneObject) (color : Vec3)
    (j : ℕ) (light : SceneObject) :
    shadeLight scene raydir interPos normal albedo obj color j light
      = if (findFirstIntersector scene
            (interPos + qsmul (1/1000 : ℚ) (vnormalize (light.getRayFrom interPos)))
            (vnormalize (light.getRayFrom interPos))).1 = some j
        then color + (diffuseTerm normal albedo (light.getMaterial vzero).emissive
              (vnormalize (light.getRayFrom interPos))
            + specularTerm raydir normal ((obj.getMaterial vzero).specular)
              (vnormalize (light.getRayFrom interPos)))
        else color := by
  rw [qsmul_hmul, shadeLight_eq_add]
  unfold contribution lightDirOf shadowEps
  dsimp only []
  by_cases h : (findFirstIntersector scene
      (interPos + vnormalize (light.getRayFrom interPos) * (1/1000 : ℚ))
      (vnormalize (light.getRayFrom interPos))).1 = some j
  · rw [if_pos h, if_pos h]
  · rw [if_neg h, if_neg h, vec3_add_vzero]

/-- C1 (amended): in `TraceRay` only the albedo of the hit material is
queried at the intersection point; the emissive initializing the
accumulated color, the hit material's specular color, and each candidate
light's emissive are queried from `GetMaterial` at the fixed point
`(0, 0, 0)`. -/
theorem traceRay_material_query_points (scene : List SceneObject)
    (rayorig raydir : Vec3) (depth : ℤ) (i : ℕ) (obj : SceneObject)
    (h1 : (findFirstIntersector scene rayorig raydir).1 = some i)
    (h2 : scene.get? i = some obj) :
    traceRay scene rayorig raydir depth
      = some ((obj.getMaterial vzero).emissive
          + vsum (scene.enum.map (fun lj =>
              contribution scene raydir
                (rayorig + vnormalize raydir * (findFirstIntersector scene rayorig raydir).2)
                (obj.getSurfaceNormal
                  (rayorig + vnormalize raydir * (findFirstIntersector scene rayorig raydir).2))
                ((obj.getMaterial
                  (rayorig + vnormalize raydir * (findFirstIntersector scene rayorig raydir).2)).albedo)
                ((obj.getMaterial vzero).specular) lj.1 lj.2))) :=
  traceRay_char scene rayorig raydir depth i obj h1 h2

theorem traceRay_material_query_points_witness :
    traceRay [exObj] ⟨10, 0, 0⟩ ⟨1, 0, 0⟩ 0
      = some ((exObj.getMaterial vzero).emissive
          + vsum (([exObj].enum).map (fun lj =>
              contribution [exObj] ⟨1, 0, 0⟩
                (⟨10, 0, 0⟩ + vnormalize ⟨1, 0, 0⟩
                  * (findFirstIntersector [exObj] ⟨10, 0, 0⟩ ⟨1, 0, 0⟩).2)
                (exObj.getSurfaceNormal (⟨10, 0, 0⟩ + vnormalize ⟨1, 0, 0⟩
                  * (findFirstIntersector [exObj] ⟨10, 0, 0⟩ ⟨1, 0, 0⟩).2))
                ((exObj.getMaterial (⟨10, 0, 0⟩ + vnormalize ⟨1, 0, 0⟩
                  * (findFirstIntersector [exObj] ⟨10, 0, 0⟩ ⟨1, 0, 0⟩).2)).albedo)
                ((exObj.getMaterial vzero).specular) lj.1 lj.2))) :=
  traceRay_material_query_points [exObj] ⟨10, 0, 0⟩ ⟨1, 0, 0⟩ 0 0 exObj
    (by norm_num [findFirstIntersector, ffiAux, exObj, fltMax]) rfl

/-- C1 counterexample: a scene whose single object has a spatially varying
emissive (bright at the fixed query point `(0, 0, 0)`, black at the actual
intersection point) and zero albedo and specular.  The source returns the
emissive queried at `(0, 0, 0)`, not — as the claim states — the emissive
at the intersection point, which the spec-modelled point-queried variant
would return. -/
theorem traceRay_fixed_point_material_counterexample :
    traceRay [exObj] ⟨10, 0, 0⟩ ⟨1, 0, 0⟩ 0 = some ⟨5, 0, 0⟩
    ∧ traceRayPointQueried [exObj] ⟨10, 0, 0⟩ ⟨1, 0, 0⟩ 0 = some vzero
    ∧ some (Vec3.mk 5 0 0) ≠ some vzero := by
  refine ⟨?_, ?_, by norm_num [vzero, Vec3.mk.injEq]⟩ <;>
    norm_num [traceRay, traceRayPointQueried, findFirstIntersector, ffiAux, exObj,
      exMaterial, vnormalize, vlength, ratSqrt, dot3, Nat.sqrt, shadeLight,
      shadeLightPointQueried, shadowEps, fltMax, vzero, vec3_add_def, vec3_sub_def,
      vec3_mul_def, vec3_hmul_def, reflect, List.enum, List.enumFrom, Vec3.mk.injEq]

/-- C7: every pixel the render driver emits is produced by tracing the
camera ray built at the pixel center `(x + 0.5, y + 0.5)` with depth `0`,
scaling by `255`, clamping each channel to `[0, 255]` and truncating to
8-bit; every emitted channel lies in `[0, 255]`, and the value handed to the
8-bit truncation is already clamped into `[0, 255]`. -/
theorem drawScenePixel_output_bounds (cam : Camera) (scene : List SceneObject)
    (x y : ℕ) (r g b : ℕ)
    (h : drawScenePixel cam scene x y = some (r, g, b)) :
    r ≤ 255 ∧ g ≤ 255 ∧ b ≤ 255
    ∧ ∃ c, traceRay scene cam.position (cam.getWorldRay ((x : ℚ) + 1/2) ((y : ℚ) + 1/2)) 0
          = some c
        ∧ 0 ≤ (vclamp (c * (255 : ℚ)) vzero ⟨255, 255, 255⟩).x
        ∧ (vclamp (c * (255 : ℚ)) vzero ⟨255, 255, 255⟩).x ≤ 255
        ∧ 0 ≤ (vclamp (c * (255 : ℚ)) vzero ⟨255, 255, 255⟩).y
        ∧ (vclamp (c * (255 : ℚ)) vzero ⟨255, 255, 255⟩).y ≤ 255
        ∧ 0 ≤ (vclamp (c * (255 : ℚ)) vzero ⟨255, 255, 255⟩).z
        ∧ (vclamp (c * (255 : ℚ)) vzero ⟨255, 255, 255⟩).z ≤ 255
        ∧ r = toByte (vclamp (c * (255 : ℚ)) vzero ⟨255, 255, 255⟩).x
        ∧ g = toByte (vclamp (c * (255 : ℚ)) vzero ⟨255, 255, 255⟩).y
        ∧ b = toByte (vclamp (c * (255 : ℚ)) vzero ⟨255, 255, 255⟩).z := by
  unfold drawScenePixel at h
  dsimp only [] at h
  cases ht : traceRay scene cam.position (cam.getWorldRay ((x : ℚ) + 1/2) ((y : ℚ) + 1/2)) 0 with
  | none =>
    rw [ht] at h
    cases h
  | some c =>
    rw [ht] at h
    dsimp only [] at h
    injection h with h2
    simp only [Prod.mk.injEq] at h2
    obtain ⟨hr, hg2, hb2⟩ := h2
    have hx := clampQ_bounds (c * (255 : ℚ)).x
    have hy := clampQ_bounds (c * (255 : ℚ)).y
    have hz := clampQ_bounds (c * (255 : ℚ)).z
    refine ⟨?_, ?_, ?_, c, rfl, hx.1, hx.2, hy.1, hy.2, hz.1, hz.2, hr.symm, hg2.symm, hb2.symm⟩
    · rw [← hr]
      exact toByte_le_255 _ hx.2
    · rw [← hg2]
      exact toByte_le_255 _ hy.2
    · rw [← hb2]
      exact toByte_le_255 _ hz.2

theorem drawScenePixel_output_bounds_witness :
    (255 : ℕ) ≤ 255 ∧ (0 : ℕ) ≤ 255 ∧ (0 : ℕ) ≤ 255
    ∧ ∃ c, traceRay [exObj] exCam.position
          (exCam.getWorldRay ((0 : ℕ) + 1/2 : ℚ) ((0 : ℕ) + 1/2 : ℚ)) 0 = some c
        ∧ 0 ≤ (vclamp (c * (255 : ℚ)) vzero ⟨255, 255, 255⟩).x
        ∧ (vclamp (c * (255 : ℚ)) vzero ⟨255, 255, 255⟩).x ≤ 255
        ∧ 0 ≤ (vclamp (c * (255 : ℚ)) vzero ⟨255, 255, 255⟩).y
        ∧ (vclamp (c * (255 : ℚ)) vzero ⟨255, 255, 255⟩).y ≤ 255
        ∧ 0 ≤ (vclamp (c * (255 : ℚ)) vzero ⟨255, 255, 255⟩).z
        ∧ (vclamp (c * (255 : ℚ)) vzero ⟨255, 255, 255⟩).z ≤ 255
        ∧ 255 = toByte (vclamp (c * (255 : ℚ)) vzero ⟨255, 255, 255⟩).x
        ∧ 0 = toByte (vclamp (c * (255 : ℚ)) vzero ⟨255, 255, 255⟩).y
        ∧ 0 = toByte (vclamp (c * (255 : ℚ)) vzero ⟨255, 255, 255⟩).z :=
  drawScenePixel_output_bounds exCam [exObj] 0 0 255 0 0
    (by norm_num [drawScenePixel, exCam, traceRay, findFirstIntersector, ffiAux, exObj,
      exMaterial, vnormalize, vlength, ratSqrt, dot3, Nat.sqrt, shadeLight, shadowEps,
      fltMax, vzero, vec3_add_def, vec3_sub_def, vec3_mul_def, vec3_hmul_def, reflect,
      List.enum, List.enumFrom, Vec3.mk.injEq, vclamp, clampQ, toByte, Int.toNat])

theorem vnormalize_two_x : vnormalize ⟨2, 0, 0⟩ = ⟨1, 0, 0⟩ := by
  have h : ratSqrt (dot3 ⟨2, 0, 0⟩ ⟨2, 0, 0⟩) = 2 := by
    have hd : dot3 (⟨2, 0, 0⟩ : Vec3) ⟨2, 0, 0⟩ = 4 := by norm_num [dot3]
    rw [hd]
    have h1 : (4 : ℚ).num.toNat = 4 := rfl
    have h2 : (4 : ℚ).den = 1 := rfl
    unfold ratSqrt
    rw [h1, h2]
    norm_num [Nat.sqrt]
  unfold vnormalize vlength
  rw [h]
  norm_num [Vec3.mk.injEq]

/-- C8 counterexample: `FindFirstIntersector` itself performs no
normalization — it hands the direction to each object's `Intersects`
unchanged — so with an intersection test that is sensitive to the
direction's scale the returned distance differs between the raw and the
pre-normalized direction. -/
theorem findFirstIntersector_unnormalized_counterexample :
    findFirstIntersector [scaleObj] vzero ⟨2, 0, 0⟩
      ≠ findFirstIntersector [scaleObj] vzero (vnormalize ⟨2, 0, 0⟩) := by
  rw [vnormalize_two_x]
  norm_num [findFirstIntersector, ffiAux, scaleObj, fltMax, Prod.ext_iff]

/-- C8 (amended): `FindFirstIntersector` passes the direction through to
each object's intersection test unnormalized; when every scene object's
test normalizes internally (the data-model invariant for the object classes,
which live outside the translated source), the returned object and distance
are the same whether or not the caller pre-normalized the direction. -/
theorem findFirstIntersector_normalization_invariant (scene : List SceneObject)
    (origin dir : Vec3)
    (h : ∀ o ∈ scene, o.intersects origin dir = o.intersects origin (vnormalize dir)) :
    findFirstIntersector scene origin dir
      = findFirstIntersector scene origin (vnormalize dir) :=
  ffiAux_congr origin dir (vnormalize dir) scene 0 (none, fltMax) h

theorem findFirstIntersector_normalization_invariant_witness :
    findFirstIntersector [objA] vzero ⟨2, 0, 0⟩
      = findFirstIntersector [objA] vzero (vnormalize ⟨2, 0, 0⟩) :=
  findFirstIntersector_normalization_invariant [objA] vzero ⟨2, 0, 0⟩
    (by
      intro o ho
      simp only [List.mem_singleton] at ho
      subst ho
      rfl)

/-- C9: `TraceRay` neither depends on its depth argument nor on any
material's reflectance field: the result is unchanged for any two depths,
and unchanged when the reflectance of every material in the scene is
overwritten by an arbitrary value. -/
theorem traceRay_depth_reflectance_independent (scene : List SceneObject)
    (rayorig raydir : Vec3) (d1 d2 : ℤ) (r : ℚ) :
    traceRay scene rayorig raydir d1 = traceRay scene rayorig raydir d2
    ∧ traceRay (scene.map (overrideReflectance r)) rayorig raydir d1
        = traceRay scene rayorig raydir d1 :=
  ⟨rfl, traceRay_override scene rayorig raydir d1 r⟩

/-- C10: if no scene object intersects the ray, `FindFirstIntersector`
returns the null object together with `dst = FLT_MAX`; `TraceRay`
dereferences the returned object with no null check (modelled by the `none`
result), and under the precondition that some object reports a hit below
`FLT_MAX` that null-dereference branch is unreachable. -/
theorem findFirstIntersector_none_and_traceRay_precondition
    (scene : List SceneObject) (origin dir : Vec3) (depth : ℤ) :
    ((∀ o ∈ scene, o.intersects origin dir = none) →
      findFirstIntersector scene origin dir = (none, fltMax))
    ∧ ((findFirstIntersector scene origin dir).1 = none →
        traceRay scene origin dir depth = none)
    ∧ ((∃ j o d, scene.get? j = some o ∧ o.intersects origin dir = some d ∧ d < fltMax) →
        ∃ c, traceRay scene origin dir depth = some c) := by
  refine ⟨ffi_none_all scene origin dir, ?_, ?_⟩
  · intro h
    unfold traceRay
    dsimp only []
    rw [h]
  · rintro ⟨j, o, d, hg, hi, hd⟩
    have hne := ffi_hit_some scene origin dir j o d hg hi hd
    cases hidx : (findFirstIntersector scene origin dir).1 with
    | none => exact absurd hidx hne
    | some i =>
      obtain ⟨ob, hgi, _, _, _, _⟩ := ffi_spec_some scene origin dir i hidx
      exact ⟨_, traceRay_char scene origin dir depth i ob hidx hgi⟩

theorem findFirstIntersector_none_and_traceRay_precondition_witness :
    ∃ c, traceRay [exObj] vzero ⟨1, 0, 0⟩ 0 = some c :=
  (findFirstIntersector_none_and_traceRay_precondition [exObj] vzero ⟨1, 0, 0⟩ 0).2.2
    ⟨0, exObj, 1, rfl, rfl, by norm_num [fltMax]⟩
